import Mathlib

/-!
Verification of the content-normalization pipeline of `chat-llamaindex`
(`src/app/api/fetch/content.ts`).

The TypeScript source is shallowly embedded:

* pure string/list manipulation is translated to executable Lean functions;
* the external effects (the initial HTTP `fetch`, the `youtube-transcript`
  captions provider, the `axios` binary re-fetch, `pdf-parse`, and the
  `rehype-parse` / `rehype-remark` / `remark-stringify` library stages) are
  supplied by an `Env` record of oracle functions, so every theorem
  quantifies over the possible behaviours of those collaborators;
* fallible code returns `Except FetchError`.
-/

namespace ChatLlama

/-! ## JavaScript regular-expression primitives

`isYouTubeLink` tests the regex
`/^(http(s)?:\/\/)?((w){3}.)?youtu(be|.be)?(\.com)?\/.+/` with
`pattern.test(url)`.  The pattern is anchored on the left only, so `test`
succeeds iff some prefix of the string matches.  The matcher below embeds
that concrete pattern: each optional group contributes a list of candidate
remainders (all backtracking alternatives), and `.` is the JavaScript dot,
which matches every character except a line terminator. -/

/-- The JavaScript `.` (no `s` flag): any character except a line terminator
(U+000A, U+000D, U+2028, U+2029). -/
def jsDot (c : Char) : Bool :=
  c != '\n' && c != '\r' && c != Char.ofNat 0x2028 && c != Char.ofNat 0x2029

/-- Remainders after the optional group `(http(s)?:\/\/)?`. -/
def schemeAlts (cs : List Char) : List (List Char) :=
  (if "https://".data.isPrefixOf cs then [cs.drop 8] else []) ++
    (if "http://".data.isPrefixOf cs then [cs.drop 7] else []) ++ [cs]

/-- Remainders after the optional group `((w){3}.)?` (three `w`s followed by
any character — the unescaped `.` in the source pattern). -/
def wwwAlts (cs : List Char) : List (List Char) :=
  match cs with
  | 'w' :: 'w' :: 'w' :: c :: rest => if jsDot c then [rest, cs] else [cs]
  | _ => [cs]

/-- Remainders after the optional group `(be|.be)?` (`.` again the
JavaScript any-character). -/
def beAlts (cs : List Char) : List (List Char) :=
  (match cs with
   | 'b' :: 'e' :: rest => [rest]
   | _ => []) ++
    (match cs with
     | c :: 'b' :: 'e' :: rest => if jsDot c then [rest] else []
     | _ => []) ++ [cs]

/-- Remainders after the optional group `(\.com)?`. -/
def comAlts (cs : List Char) : List (List Char) :=
  (match cs with
   | '.' :: 'c' :: 'o' :: 'm' :: rest => [rest]
   | _ => []) ++ [cs]

/-- The tail `\/.+` of the pattern: a literal `/` followed by at least one
`jsDot` character (with no right anchor, one such character suffices for a
match to exist). -/
def slashDotPlus (cs : List Char) : Bool :=
  match cs with
  | '/' :: c :: _ => jsDot c
  | _ => false

/-- `isYouTubeLink` from `content.ts`: tests
`/^(http(s)?:\/\/)?((w){3}.)?youtu(be|.be)?(\.com)?\/.+/` against the URL. -/
def isYouTubeLink (url : String) : Bool :=
  (schemeAlts url.data).any fun c1 =>
    (wwwAlts c1).any fun c2 =>
      "youtu".data.isPrefixOf c2 &&
        ((beAlts (c2.drop 5)).any fun c3 =>
          (comAlts c3).any fun c4 => slashDotPlus c4)

/-- Does `pat` occur as a contiguous sublist of the second list? -/
def listHasInfix (pat : List Char) : List Char → Bool
  | [] => pat.isEmpty
  | c :: rest => pat.isPrefixOf (c :: rest) || listHasInfix pat rest

/-- JavaScript `String.prototype.includes`: substring containment. -/
def jsIncludes (s pat : String) : Bool :=
  listHasInfix pat.data s.data

/-! ## `new URL(url)` and `searchParams.get("v")`

`getYouTubeSubtitles` runs `new URL(url).searchParams.get("v")`.  The WHATWG
URL parser is embedded only as far as the code exercises it:

* the input is trimmed of leading/trailing C0-control-or-space code points
  and all tabs/newlines are removed;
* a scheme `[a-zA-Z][a-zA-Z0-9+.-]*` terminated by `:` is required — with no
  base URL, a scheme-less input makes the constructor throw `TypeError`;
* for the special schemes the authority must contain a non-empty host;
* the query component is the text between the first `?` (before any `#`) and
  the `#`; `searchParams` parses it as `application/x-www-form-urlencoded`:
  split on `&`, drop empty pieces, split each piece at its first `=`, decode
  `+` as space and `%hh` percent-escapes (byte-wise; multi-byte UTF-8
  sequences are not recombined, which no claim exercises);
* host validation beyond non-emptiness (forbidden host code points, IDNA)
  is not modelled; no claim exercises it. -/

/-- C0 controls and U+0020, stripped from both ends by the URL parser. -/
def isC0OrSpace (c : Char) : Bool :=
  c.toNat ≤ 0x20

/-- ASCII tab or newline, removed everywhere by the URL parser. -/
def isTabOrNewline (c : Char) : Bool :=
  c == '\t' || c == '\n' || c == '\r'

/-- Input preprocessing of the WHATWG URL parser. -/
def urlPreprocess (s : String) : List Char :=
  ((((s.data.dropWhile isC0OrSpace).reverse.dropWhile isC0OrSpace).reverse).filter
    fun c => !isTabOrNewline c)

def isSchemeStartChar (c : Char) : Bool :=
  c.isAlpha

def isSchemeChar (c : Char) : Bool :=
  c.isAlpha || c.isDigit || c == '+' || c == '-' || c == '.'

/-- Parse the leading `scheme:` of a URL; `none` when the input has no valid
scheme (in which case `new URL` throws). Returns the lowercased scheme and
the remainder after the colon. -/
def parseScheme : List Char → Option (String × List Char)
  | [] => none
  | c :: rest =>
    if isSchemeStartChar c then
      let body := rest.takeWhile isSchemeChar
      match rest.drop body.length with
      | ':' :: tail => some (String.mk ((c :: body).map Char.toLower), tail)
      | _ => none
    else none

/-- The WHATWG special schemes (minus `file`, which has no host
requirement). -/
def specialSchemes : List String :=
  ["http", "https", "ws", "wss", "ftp"]

/-- Characters terminating the authority component. -/
def hostEndChar (c : Char) : Bool :=
  c == '/' || c == '?' || c == '#' || c == '\\'

/-- The outcome of `new URL(url)`, restricted to the components the code
reads. -/
structure ParsedURL where
  scheme : String
  query : Option (List Char)
deriving Repr, DecidableEq

/-- `new URL(url)` (no base): `none` models the constructor throwing. -/
def parseURL (url : String) : Option ParsedURL :=
  match parseScheme (urlPreprocess url) with
  | none => none
  | some (scheme, rest) =>
    let preFragment := rest.takeWhile fun c => c != '#'
    let query : Option (List Char) :=
      if preFragment.any (fun c => c == '?') then
        some ((preFragment.dropWhile fun c => c != '?').drop 1)
      else none
    if specialSchemes.contains scheme then
      let afterSlashes := rest.dropWhile fun c => c == '/' || c == '\\'
      let authority := afterSlashes.takeWhile fun c => !hostEndChar c
      let hostPort := (authority.reverse.takeWhile fun c => c != '@').reverse
      let host := hostPort.takeWhile fun c => c != ':'
      if host.isEmpty then none else some ⟨scheme, query⟩
    else some ⟨scheme, query⟩

def hexDigitValue (c : Char) : Option Nat :=
  if '0' ≤ c ∧ c ≤ '9' then some (c.toNat - 48)
  else if 'a' ≤ c ∧ c ≤ 'f' then some (c.toNat - 87)
  else if 'A' ≤ c ∧ c ≤ 'F' then some (c.toNat - 55)
  else none

/-- Percent-decoding of `application/x-www-form-urlencoded` values
(byte-wise): a `%` followed by two hex digits becomes the encoded byte,
anything else passes through. -/
def percentDecode : List Char → List Char
  | [] => []
  | '%' :: a :: b :: rest =>
    match hexDigitValue a, hexDigitValue b with
    | some hi, some lo => Char.ofNat (16 * hi + lo) :: percentDecode rest
    | _, _ => '%' :: percentDecode (a :: b :: rest)
  | c :: rest => c :: percentDecode rest

/-- Decode a form-urlencoded token: `+` is space, then percent-decode. -/
def formDecode (cs : List Char) : String :=
  String.mk (percentDecode (cs.map fun c => if c == '+' then ' ' else c))

/-- Split a character list on a separator (the separator is dropped). -/
def splitOnChar (sep : Char) : List Char → List (List Char)
  | [] => [[]]
  | c :: rest =>
    if c == sep then [] :: splitOnChar sep rest
    else
      match splitOnChar sep rest with
      | [] => [[c]]
      | h :: t => (c :: h) :: t

/-- One `name=value` piece of a query string (split at the first `=`; a
piece without `=` is a name with empty value). -/
def parsePair (p : List Char) : String × String :=
  if p.any (fun c => c == '=') then
    (formDecode (p.takeWhile fun c => c != '='),
      formDecode ((p.dropWhile fun c => c != '=').drop 1))
  else (formDecode p, "")

/-- `url.searchParams.get(name)`: the value of the first pair whose decoded
name matches, `none` when there is no such pair (JavaScript `null`). -/
def searchParamsGet (query : Option (List Char)) (name : String) : Option String :=
  match query with
  | none => none
  | some q =>
    ((((splitOnChar '&' q).filter fun p => !p.isEmpty).map parsePair).find?
      fun pr => pr.1 == name).map fun pr => pr.2

example : parseURL "https://youtu.be/" = some ⟨"https", none⟩ := by decide
example : parseURL "youtube.com/watch?v=abc" = none := by decide
example : parseURL "https://www.youtube.com/watch?v=abc" =
    some ⟨"https", some ['v', '=', 'a', 'b', 'c']⟩ := by decide
example : searchParamsGet (some "v=abc".data) "v" = some "abc" := by decide
example : searchParamsGet (some "t=10&v=abc".data) "v" = some "abc" := by decide
example : searchParamsGet (some "x=1".data) "v" = none := by decide
example : searchParamsGet none "v" = none := by decide
example : searchParamsGet (some "v=a%20b+c".data) "v" = some "a b c" := by decide
example : parseURL "www:youtu.be/x" = some ⟨"www", none⟩ := by decide

/-! ## Transcript segments and SRT serialization

`getYouTubeSubtitles` turns the provider's segments into SRT cues with

```
const start = new Date(item.offset).toISOString().substring(11, 23);
srtContent += `${index + 1}\n${start.replace(".", ",")} --> ...`
```

`toISOString()` renders `YYYY-MM-DDTHH:MM:SS.mmmZ`, so `substring(11, 23)`
is the UTC time of day `HH:MM:SS.mmm`: hours `(ms / 3600000) mod 24`
(Unix time has no leap seconds), two-digit minutes and seconds, three-digit
milliseconds — exact for every offset within JavaScript `Date`'s four-digit
year era, which covers all captions timestamps.  `String.replace` with a
string pattern replaces only the first occurrence; the only `.` in the
twelve characters is the millisecond separator. -/

/-- One timed caption segment from the `youtube-transcript` provider:
start offset and duration in milliseconds, and the caption text. -/
structure TranscriptSegment where
  offset : Nat
  duration : Nat
  text : String
deriving Repr, DecidableEq

/-- A decimal digit character. -/
def digitChar (n : Nat) : Char :=
  match n with
  | 0 => '0' | 1 => '1' | 2 => '2' | 3 => '3' | 4 => '4'
  | 5 => '5' | 6 => '6' | 7 => '7' | 8 => '8' | _ => '9'

/-- Two-digit zero-padded rendering (for values below 100). -/
def twoDigitsL (n : Nat) : List Char :=
  [digitChar (n / 10), digitChar (n % 10)]

/-- Three-digit zero-padded rendering (for values below 1000). -/
def threeDigitsL (n : Nat) : List Char :=
  [digitChar (n / 100), digitChar (n / 10 % 10), digitChar (n % 10)]

/-- Characters of `new Date(ms).toISOString().substring(11, 23)`:
the UTC time of day `HH:MM:SS.mmm`. -/
def isoTimeData (ms : Nat) : List Char :=
  twoDigitsL (ms / 3600000 % 24) ++ ':' ::
    (twoDigitsL (ms / 60000 % 60) ++ ':' ::
      (twoDigitsL (ms / 1000 % 60) ++ '.' :: threeDigitsL (ms % 1000)))

/-- `new Date(ms).toISOString().substring(11, 23)` as a string. -/
def isoTimeOfDay (ms : Nat) : String :=
  String.mk (isoTimeData ms)

/-- Replace the first occurrence of `pat` (JavaScript
`String.prototype.replace` with a string pattern). -/
def replaceFirstAux (pat rep : List Char) : List Char → List Char
  | [] => []
  | c :: rest =>
    if pat.isPrefixOf (c :: rest) then rep ++ (c :: rest).drop pat.length
    else c :: replaceFirstAux pat rep rest

/-- JavaScript `s.replace(pat, rep)` for a string pattern: first occurrence
only. -/
def jsReplaceFirst (s pat rep : String) : String :=
  String.mk (replaceFirstAux pat.data rep.data s.data)

/-- One SRT cue as emitted by the `transcript.forEach` body: 1-based index,
time range with the `.` of each timestamp replaced by `,`, text, blank
line. -/
def srtLine (index : Nat) (item : TranscriptSegment) : String :=
  toString (index + 1) ++ "\n" ++
    jsReplaceFirst (isoTimeOfDay item.offset) "." "," ++ " --> " ++
    jsReplaceFirst (isoTimeOfDay (item.offset + item.duration)) "." "," ++ "\n" ++
    item.text ++ "\n\n"

/-- The `forEach` accumulation in `getYouTubeSubtitles`: concatenate the
cues in provider order. -/
def srtSerialize (transcript : List TranscriptSegment) : String :=
  transcript.enum.foldl (fun acc p => acc ++ srtLine p.1 p.2) ""

example : srtSerialize [⟨0, 1000, "Hi"⟩] =
    "1\n00:00:00,000 --> 00:00:01,000\nHi\n\n" := by decide
example : srtSerialize [⟨0, 1000, "Hi"⟩, ⟨1000, 2500, "there"⟩] =
    "1\n00:00:00,000 --> 00:00:01,000\nHi\n\n" ++
      "2\n00:00:01,000 --> 00:00:03,500\nthere\n\n" := by decide

/-! ## The hast tree and `removeCommentsAndTables`

`rehype-parse` produces a hast tree (a `root` node over element / text /
comment / doctype nodes).  The plugin in `content.ts` runs
`remove(tree, { type: "comment" })` and then `remove(tree, { tagName:
"table" })` (`unist-util-remove`).  `remove` deletes every node passing the
test and — cascade behaviour, on by default — also deletes any parent whose
previously non-empty `children` array becomes empty.  The root node has
`type: "root"` and no `tagName`, so it matches neither test and is kept. -/

/-- A hast node (element with tag name and children, text, comment,
doctype). -/
inductive HNode where
  | element (tagName : String) (children : List HNode)
  | text (value : String)
  | comment (value : String)
  | doctype
deriving Repr

/-- The hast `root` node: a list of top-level children. -/
structure HastRoot where
  children : List HNode
deriving Repr

/-- The test `{ type: "comment" }`. -/
def isCommentNode : HNode → Bool
  | HNode.comment _ => true
  | _ => false

/-- The test `{ tagName: "table" }` (non-element nodes have no `tagName`
and never match). -/
def isTableNode : HNode → Bool
  | HNode.element tagName _ => tagName == "table"
  | _ => false

mutual

/-- `unist-util-remove` on one node: `none` when the node is removed,
either because the test matches or by cascade (all of its previously
non-empty children were removed). -/
def removeNode (test : HNode → Bool) : HNode → Option HNode
  | HNode.element tagName children =>
    if test (HNode.element tagName children) then none
    else
      let kept := removeList test children
      if children.length > 0 && kept.length == 0 then none
      else some (HNode.element tagName kept)
  | HNode.text v => if test (HNode.text v) then none else some (HNode.text v)
  | HNode.comment v => if test (HNode.comment v) then none else some (HNode.comment v)
  | HNode.doctype => if test HNode.doctype then none else some HNode.doctype

/-- `unist-util-remove` on a children list. -/
def removeList (test : HNode → Bool) : List HNode → List HNode
  | [] => []
  | c :: cs =>
    match removeNode test c with
    | none => removeList test cs
    | some m => m :: removeList test cs

end

/-- `remove(tree, test)` at the root (the root matches neither of the tests
used by the plugin). -/
def removeRoot (test : HNode → Bool) (tree : HastRoot) : HastRoot :=
  ⟨removeList test tree.children⟩

/-- The `removeCommentsAndTables` rehype plugin: remove comment nodes, then
`table` subtrees. -/
def removeCommentsAndTables (tree : HastRoot) : HastRoot :=
  removeRoot isTableNode (removeRoot isCommentNode tree)

mutual

/-- Does some node in the tree pass the test? -/
def containsMatch (test : HNode → Bool) : HNode → Bool
  | HNode.element tagName children =>
    test (HNode.element tagName children) || containsMatchList test children
  | n => test n

/-- Does some node in the forest pass the test? -/
def containsMatchList (test : HNode → Bool) : List HNode → Bool
  | [] => false
  | c :: cs => containsMatch test c || containsMatchList test cs

end

mutual

/-- All text-node values of a tree, in document order. -/
def textValues : HNode → List String
  | HNode.element _ children => textValuesList children
  | HNode.text v => [v]
  | HNode.comment _ => []
  | HNode.doctype => []

/-- All text-node values of a forest. -/
def textValuesList : List HNode → List String
  | [] => []
  | c :: cs => textValues c ++ textValuesList cs

end

mutual

/-- The text-node values lying outside every `table` subtree. -/
def textsOutsideTables : HNode → List String
  | HNode.element tagName children =>
    if tagName == "table" then [] else textsOutsideTablesList children
  | HNode.text v => [v]
  | HNode.comment _ => []
  | HNode.doctype => []

/-- The text-node values of a forest outside every `table` subtree. -/
def textsOutsideTablesList : List HNode → List String
  | [] => []
  | c :: cs => textsOutsideTables c ++ textsOutsideTablesList cs

end

example :
    removeCommentsAndTables
      ⟨[HNode.element "html"
        [HNode.element "head" [],
         HNode.element "body"
           [HNode.element "p" [HNode.text "Hello"],
            HNode.comment "noise",
            HNode.element "table"
              [HNode.element "tr" [HNode.element "td" [HNode.text "X"]]]]]]⟩ =
      ⟨[HNode.element "html"
        [HNode.element "head" [],
         HNode.element "body" [HNode.element "p" [HNode.text "Hello"]]]]⟩ := by
  rfl

/-! ## Errors and the orchestrator -/

/-- The failure kinds of the pipeline.  The first three are the errors
`content.ts` itself throws; the rest model exceptions propagated from the
collaborators (`new URL`, the transcript provider, the unified processor,
`axios`, `pdf-parse`). -/
inductive FetchError where
  | fetchFailure
  | unsupportedType
  | invalidYouTubeURL
  | urlParse
  | transcriptUnavailable
  | conversionFailure
  | refetchFailure
  | pdfParseFailure
deriving Repr, DecidableEq

/-- The message of each error thrown by `content.ts` itself (the others
carry their collaborator's message). -/
def FetchError.message : FetchError → String
  | .fetchFailure => "Failure fetching content from provided URL"
  | .unsupportedType => "URL provided is not a PDF or HTML document"
  | .invalidYouTubeURL => "Invalid YouTube URL"
  | .urlParse => "Invalid URL"
  | .transcriptUnavailable => "transcript provider error"
  | .conversionFailure => "HTML conversion error"
  | .refetchFailure => "binary re-fetch error"
  | .pdfParseFailure => "PDF parse error"

/-- The `URLDetailContent` result record (`url` is absent on the
direct-buffer path). -/
structure URLDetailContent where
  url : Option String
  content : String
  size : Nat
  type : String
deriving Repr, DecidableEq

/-- A PDF binary buffer (bytes). -/
def PdfBuffer := List Nat

/-- The response of the initial `fetch(url)`: success flag, the
`content-type` header (`none` when absent), and the body text. -/
structure HttpResponse where
  ok : Bool
  contentType : Option String
  body : String

/-- The external collaborators of one `fetchContentFromURL` invocation:
the initial HTTP response for the URL, the library stages of the unified
processor (`rehype-parse` and `rehype-remark`+`remark-stringify`), the
`youtube-transcript` provider keyed by video id, the `axios` binary
re-fetch of the same URL, and `pdf-parse`.  `Except.error` models the
collaborator throwing. -/
structure Env where
  response : HttpResponse
  parseHtml : String → HastRoot
  hastToMdString : HastRoot → Except Unit String
  transcript : String → Except Unit (List TranscriptSegment)
  refetchBuffer : Except Unit PdfBuffer
  pdfParse : PdfBuffer → Except Unit String

/-- `getYouTubeSubtitles(url)`: parse the `v` query parameter as the video
id (a missing or empty id — JavaScript falsy — throws "Invalid YouTube
URL"), fetch the transcript, serialize it to SRT. -/
def getYouTubeSubtitles (provider : String → Except Unit (List TranscriptSegment))
    (url : String) : Except FetchError String :=
  match parseURL url with
  | none => Except.error FetchError.urlParse
  | some u =>
    match searchParamsGet u.query "v" with
    | none => Except.error FetchError.invalidYouTubeURL
    | some videoId =>
      if videoId == "" then Except.error FetchError.invalidYouTubeURL
      else
        match provider videoId with
        | Except.error _ => Except.error FetchError.transcriptUnavailable
        | Except.ok transcript => Except.ok (srtSerialize transcript)

/-- `htmlToMarkdown(html)`: the unified processor — parse the HTML, run the
`removeCommentsAndTables` plugin, convert to mdast and stringify (the two
library stages come from the environment). -/
def htmlToMarkdown (env : Env) (html : String) : Except FetchError String :=
  match env.hastToMdString (removeCommentsAndTables (env.parseHtml html)) with
  | Except.error _ => Except.error FetchError.conversionFailure
  | Except.ok md => Except.ok md

/-- The content-type dispatch of `fetchContentFromURL` after the YouTube
check: HTML branch, PDF branch (a second binary fetch of the URL, then
`pdf-parse`), else the `UnsupportedType` failure. -/
def contentTypeDispatch (env : Env) (url : String) : Except FetchError URLDetailContent :=
  let contentType := env.response.contentType.getD ""
  if jsIncludes contentType "text/html" then
    let htmlContent := env.response.body
    match htmlToMarkdown env htmlContent with
    | Except.error e => Except.error e
    | Except.ok markdownContent =>
      Except.ok
        { url := some url, content := markdownContent,
          size := htmlContent.length, type := "text/html" }
  else if jsIncludes contentType "application/pdf" then
    match env.refetchBuffer with
    | Except.error _ => Except.error FetchError.refetchFailure
    | Except.ok pdfBuffer =>
      match env.pdfParse pdfBuffer with
      | Except.error _ => Except.error FetchError.pdfParseFailure
      | Except.ok pdfText =>
        Except.ok
          { url := some url, content := pdfText,
            size := pdfText.length, type := "application/pdf" }
  else Except.error FetchError.unsupportedType

/-- `fetchContentFromURL(url)`: initial GET (a non-ok status throws),
YouTube check before any content-type dispatch, then the content-type
dispatch. -/
def fetchContentFromURL (env : Env) (url : String) : Except FetchError URLDetailContent :=
  if env.response.ok = false then Except.error FetchError.fetchFailure
  else if isYouTubeLink url then
    (getYouTubeSubtitles env.transcript url).map fun srtContent =>
      { url := some url, content := srtContent,
        size := srtContent.length, type := "text/plain" }
  else contentTypeDispatch env url

/-- The `{content, size, type}` record of the direct-buffer path. -/
structure PDFBufferContent where
  content : String
  size : Nat
  type : String
deriving Repr, DecidableEq

/-- `getPDFContentFromBuffer(pdfBuffer)`: extract text from an uploaded
buffer; no URL, no sniffing. -/
def getPDFContentFromBuffer (pdfParse : PdfBuffer → Except Unit String)
    (pdfBuffer : PdfBuffer) : Except FetchError PDFBufferContent :=
  match pdfParse pdfBuffer with
  | Except.error _ => Except.error FetchError.pdfParseFailure
  | Except.ok text =>
    Except.ok { content := text, size := text.length, type := "application/pdf" }

/-! ## Concrete environments used to instantiate the theorems -/

/-- An environment whose initial GET failed (e.g. a 404). -/
def envNotOk : Env :=
  { response := { ok := false, contentType := none, body := "" }
    parseHtml := fun _ => ⟨[]⟩
    hastToMdString := fun _ => Except.ok ""
    transcript := fun _ => Except.error ()
    refetchBuffer := Except.error ()
    pdfParse := fun _ => Except.error () }

/-- An environment serving an HTML page whose markdown rendering is shorter
than the raw HTML. -/
def envHtmlPage : Env :=
  { response := { ok := true, contentType := some "text/html", body := "<p>Hi</p>" }
    parseHtml := fun _ =>
      ⟨[HNode.element "html"
        [HNode.element "head" [],
         HNode.element "body" [HNode.element "p" [HNode.text "Hi"]]]]⟩
    hastToMdString := fun _ => Except.ok "Hi"
    transcript := fun _ => Except.error ()
    refetchBuffer := Except.error ()
    pdfParse := fun _ => Except.error () }

/-- An environment in which the captions provider knows video `abc`. -/
def envYouTube : Env :=
  { response := { ok := true, contentType := some "text/html", body := "<!doctype html>" }
    parseHtml := fun _ => ⟨[]⟩
    hastToMdString := fun _ => Except.ok ""
    transcript := fun videoId =>
      if videoId == "abc" then Except.ok [⟨0, 1000, "Hi"⟩] else Except.error ()
    refetchBuffer := Except.error ()
    pdfParse := fun _ => Except.error () }

/-- An environment serving a PDF resource. -/
def envPdf : Env :=
  { response := { ok := true, contentType := some "application/pdf", body := "" }
    parseHtml := fun _ => ⟨[]⟩
    hastToMdString := fun _ => Except.ok ""
    transcript := fun _ => Except.error ()
    refetchBuffer := Except.ok ([0x25, 0x50, 0x44, 0x46] : List Nat)
    pdfParse := fun _ => Except.ok "Extracted text" }

/-- An environment serving a JSON resource (neither HTML nor PDF). -/
def envJson : Env :=
  { response := { ok := true, contentType := some "application/json", body := "{}" }
    parseHtml := fun _ => ⟨[]⟩
    hastToMdString := fun _ => Except.ok ""
    transcript := fun _ => Except.error ()
    refetchBuffer := Except.error ()
    pdfParse := fun _ => Except.error () }

/-- The character class of YouTube video ids (ASCII letters, digits, `-`,
`_`): characters that are neither URL syntax nor whitespace nor escapes. -/
def plainParamChar (c : Char) : Bool :=
  (decide (97 ≤ c.toNat) && decide (c.toNat ≤ 122)) ||
    (decide (65 ≤ c.toNat) && decide (c.toNat ≤ 90)) ||
    (decide (48 ≤ c.toNat) && decide (c.toNat ≤ 57)) ||
    decide (c.toNat = 45) || decide (c.toNat = 95)

/-- The `HH:MM:SS,mmm` timestamp (comma as millisecond separator) at
millisecond precision. -/
def srtTimeString (ms : Nat) : String :=
  String.mk (twoDigitsL (ms / 3600000 % 24) ++ ':' ::
    (twoDigitsL (ms / 60000 % 60) ++ ':' ::
      (twoDigitsL (ms / 1000 % 60) ++ ',' :: threeDigitsL (ms % 1000))))

/-- One SRT cue in direct form: 1-based index, time range with
`end = start + duration`, text, blank line. -/
def srtCueBlock (index : Nat) (item : TranscriptSegment) : String :=
  toString (index + 1) ++ "\n" ++ srtTimeString item.offset ++ " --> " ++
    srtTimeString (item.offset + item.duration) ++ "\n" ++ item.text ++ "\n\n"

/-- Tests whose verdict on an element ignores the children: both plugin
tests (`type: "comment"`, `tagName: "table"`) are of this kind. -/
def ShallowTest (test : HNode → Bool) : Prop :=
  ∀ tagName ch1 ch2, test (HNode.element tagName ch1) = test (HNode.element tagName ch2)

/-! ## Helper lemmas -/

theorem takeWhile_all_true {p : Char → Bool} :
    ∀ {l : List Char}, (∀ c ∈ l, p c = true) → l.takeWhile p = l
  | [], _ => rfl
  | c :: rest, h => by
    have hc := h c (List.mem_cons_self c rest)
    have hrest := takeWhile_all_true fun x hx => h x (List.mem_cons_of_mem c hx)
    simp [List.takeWhile_cons, hc, hrest]

theorem dropWhile_all_false {p : Char → Bool} :
    ∀ {l : List Char}, (∀ c ∈ l, p c = false) → l.dropWhile p = l
  | [], _ => rfl
  | c :: rest, h => by
    have hc := h c (List.mem_cons_self c rest)
    simp [List.dropWhile_cons, hc]

theorem filter_all_true {p : Char → Bool} :
    ∀ {l : List Char}, (∀ c ∈ l, p c = true) → l.filter p = l
  | [], _ => rfl
  | c :: rest, h => by
    have hc := h c (List.mem_cons_self c rest)
    have hrest := filter_all_true fun x hx => h x (List.mem_cons_of_mem c hx)
    simp [List.filter_cons, hc, hrest]

/-- A plain character differs from every non-plain character. -/
theorem plain_beq_false {c x : Char} (h : plainParamChar c = true)
    (hx : plainParamChar x = false) : (c == x) = false := by
  rcases Bool.eq_false_or_eq_true (c == x) with hb | hb
  · rw [show c = x from by exact beq_iff_eq.mp hb] at h
    rw [h] at hx
    exact absurd hx (by simp)
  · exact hb

theorem plain_bne_true {c x : Char} (h : plainParamChar c = true)
    (hx : plainParamChar x = false) : (c != x) = true := by
  simp [bne, plain_beq_false h hx]

theorem plain_not_c0 {c : Char} (h : plainParamChar c = true) :
    isC0OrSpace c = false := by
  simp only [plainParamChar, Bool.or_eq_true, Bool.and_eq_true,
    decide_eq_true_eq] at h
  simp only [isC0OrSpace, decide_eq_false_iff_not]
  omega

theorem not_c0_not_tabnl {c : Char} (h : isC0OrSpace c = false) :
    isTabOrNewline c = false := by
  simp only [isC0OrSpace, decide_eq_false_iff_not] at h
  have h9 : (c == '\t') = false := by
    rcases Bool.eq_false_or_eq_true (c == '\t') with hb | hb
    · exact absurd (by rw [beq_iff_eq.mp hb]; decide) h
    · exact hb
  have h10 : (c == '\n') = false := by
    rcases Bool.eq_false_or_eq_true (c == '\n') with hb | hb
    · exact absurd (by rw [beq_iff_eq.mp hb]; decide) h
    · exact hb
  have h13 : (c == '\r') = false := by
    rcases Bool.eq_false_or_eq_true (c == '\r') with hb | hb
    · exact absurd (by rw [beq_iff_eq.mp hb]; decide) h
    · exact hb
  simp [isTabOrNewline, h9, h10, h13]

/-- Preprocessing is the identity on inputs with no C0-control/space
characters. -/
theorem urlPreprocess_nows {s : String}
    (h : ∀ c ∈ s.data, isC0OrSpace c = false) : urlPreprocess s = s.data := by
  unfold urlPreprocess
  rw [dropWhile_all_false h]
  rw [dropWhile_all_false fun c hc => h c (List.mem_reverse.mp hc)]
  rw [List.reverse_reverse]
  exact filter_all_true fun c hc => by rw [not_c0_not_tabnl (h c hc)]; rfl

/-- Splitting a list that contains no separator yields the single piece. -/
theorem splitOnChar_no_sep {sep : Char} :
    ∀ {l : List Char}, (∀ c ∈ l, (c == sep) = false) → splitOnChar sep l = [l]
  | [], _ => rfl
  | c :: rest, h => by
    have hc := h c (List.mem_cons_self c rest)
    have hrest := splitOnChar_no_sep fun x hx => h x (List.mem_cons_of_mem c hx)
    simp [splitOnChar, hc, hrest]

/-- On a head that is not `%`, percent-decoding passes the head through. -/
theorem percentDecode_cons_ne {c : Char} (hcne : c ≠ '%') (rest : List Char) :
    percentDecode (c :: rest) = c :: percentDecode rest := by
  rw [percentDecode.eq_def]
  split
  · rename_i heq
    exact absurd heq (by simp)
  · rename_i heq
    injection heq with h1 _
    exact absurd h1 hcne
  · rename_i c2 rest2 heq
    injection heq with h1 h2
    rw [h1, h2]

/-- Percent-decoding is the identity on `%`-free input. -/
theorem percentDecode_no_pct :
    ∀ {l : List Char}, (∀ c ∈ l, (c == '%') = false) → percentDecode l = l
  | [], _ => rfl
  | c :: rest, h => by
    have hc := h c (List.mem_cons_self ..)
    have hcne : c ≠ '%' := fun e => by rw [e] at hc; exact absurd hc (by decide)
    have hrest := percentDecode_no_pct fun x hx => h x (List.mem_cons_of_mem c hx)
    rw [percentDecode_cons_ne hcne, hrest]

/-- `+`-to-space is the identity on `+`-free input. -/
theorem mapPlus_id {l : List Char} (h : ∀ c ∈ l, (c == '+') = false) :
    (l.map fun c => if c == '+' then ' ' else c) = l := by
  induction l with
  | nil => rfl
  | cons c rest ih =>
    have hc := h c (List.mem_cons_self ..)
    simp only [List.map_cons, hc, if_false, Bool.false_eq_true]
    rw [ih fun x hx => h x (List.mem_cons_of_mem c hx)]

/-- Form-decoding is the identity on plain input. -/
theorem formDecode_plain {l : List Char} (h : ∀ c ∈ l, plainParamChar c = true) :
    formDecode l = String.mk l := by
  unfold formDecode
  rw [mapPlus_id fun c hc => plain_beq_false (h c hc) (by decide)]
  rw [percentDecode_no_pct fun c hc => plain_beq_false (h c hc) (by decide)]

/-- `searchParams.get("v")` on the query `v=<id>` for a plain id. -/
theorem searchParamsGet_v {id : String}
    (hid : ∀ c ∈ id.data, plainParamChar c = true) :
    searchParamsGet (some ('v' :: '=' :: id.data)) "v" = some id := by
  have hsplit : splitOnChar '&' ('v' :: '=' :: id.data) = ['v' :: '=' :: id.data] := by
    refine splitOnChar_no_sep ?_
    intro c hc
    rw [List.mem_cons] at hc
    rcases hc with rfl | hc
    · decide
    · rw [List.mem_cons] at hc
      rcases hc with rfl | hc
      · decide
      · exact plain_beq_false (hid c hc) (by decide)
  have hany : (('v' :: '=' :: id.data).any fun c => c == '=') = true := by
    simp [List.any_cons]
  have hpair : parsePair ('v' :: '=' :: id.data) = ("v", id) := by
    unfold parsePair
    rw [if_pos hany]
    have hname : ('v' :: '=' :: id.data).takeWhile (fun c => c != '=') = ['v'] := rfl
    have hval : (('v' :: '=' :: id.data).dropWhile fun c => c != '=').drop 1 = id.data := rfl
    rw [hname, hval, formDecode_plain hid]
    rfl
  rw [show searchParamsGet (some ('v' :: '=' :: id.data)) "v" =
    Option.map (fun pr => pr.2)
      (List.find? (fun pr => pr.1 == "v")
        (List.map parsePair
          (List.filter (fun p => !p.isEmpty)
            (splitOnChar '&' ('v' :: '=' :: id.data))))) from rfl]
  rw [hsplit]
  simp only [List.filter_cons, List.filter_nil, List.isEmpty_cons, Bool.not_false,
    if_true, List.map_cons, List.map_nil, hpair, List.find?_cons]
  rfl

/-- `new URL` on `https://www.youtube.com/watch?v=<id>` for a plain id:
scheme `https`, query `v=<id>`. -/
theorem parseURL_watch_www {id : String}
    (hid : ∀ c ∈ id.data, plainParamChar c = true) :
    parseURL ("https://www.youtube.com/watch?v=" ++ id) =
      some ⟨"https", some ('v' :: '=' :: id.data)⟩ := by
  have hlit : ∀ c ∈ "https://www.youtube.com/watch?v=".data, isC0OrSpace c = false := by
    decide
  have hmem : ∀ c ∈ ("https://www.youtube.com/watch?v=" ++ id).data, isC0OrSpace c = false := by
    intro c hc
    rw [show ("https://www.youtube.com/watch?v=" ++ id).data =
      "https://www.youtube.com/watch?v=".data ++ id.data from rfl,
      List.mem_append] at hc
    rcases hc with hc | hc
    · exact hlit c hc
    · exact plain_not_c0 (hid c hc)
  have hpre : urlPreprocess ("https://www.youtube.com/watch?v=" ++ id) =
      "https://www.youtube.com/watch?v=".data ++ id.data := urlPreprocess_nows hmem
  have hscheme : parseScheme ("https://www.youtube.com/watch?v=".data ++ id.data) =
      some ("https", "//www.youtube.com/watch?v=".data ++ id.data) := rfl
  have hfrag : (("//www.youtube.com/watch?v=".data ++ id.data).takeWhile
      fun c => c != '#') = "//www.youtube.com/watch?v=".data ++ id.data := by
    refine takeWhile_all_true ?_
    intro c hc
    rw [List.mem_append] at hc
    rcases hc with hc | hc
    · revert c; decide
    · exact plain_bne_true (hid c hc) (by decide)
  have hany : (("//www.youtube.com/watch?v=".data ++ id.data).any
      fun c => c == '?') = true := by
    rw [List.any_append]
    rw [show ("//www.youtube.com/watch?v=".data.any fun c => c == '?') = true from by decide]
    rfl
  have hdropq : (("//www.youtube.com/watch?v=".data ++ id.data).dropWhile
      fun c => c != '?') = '?' :: 'v' :: '=' :: id.data := rfl
  unfold parseURL
  rw [hpre, hscheme]
  simp only [hfrag, hany, if_true, hdropq]
  rfl

/-- `new URL` on `https://youtube.com/watch?v=<id>` for a plain id:
scheme `https`, query `v=<id>`. -/
theorem parseURL_watch_nowww {id : String}
    (hid : ∀ c ∈ id.data, plainParamChar c = true) :
    parseURL ("https://youtube.com/watch?v=" ++ id) =
      some ⟨"https", some ('v' :: '=' :: id.data)⟩ := by
  have hlit : ∀ c ∈ "https://youtube.com/watch?v=".data, isC0OrSpace c = false := by
    decide
  have hmem : ∀ c ∈ ("https://youtube.com/watch?v=" ++ id).data, isC0OrSpace c = false := by
    intro c hc
    rw [show ("https://youtube.com/watch?v=" ++ id).data =
      "https://youtube.com/watch?v=".data ++ id.data from rfl,
      List.mem_append] at hc
    rcases hc with hc | hc
    · exact hlit c hc
    · exact plain_not_c0 (hid c hc)
  have hpre : urlPreprocess ("https://youtube.com/watch?v=" ++ id) =
      "https://youtube.com/watch?v=".data ++ id.data := urlPreprocess_nows hmem
  have hscheme : parseScheme ("https://youtube.com/watch?v=".data ++ id.data) =
      some ("https", "//youtube.com/watch?v=".data ++ id.data) := rfl
  have hfrag : (("//youtube.com/watch?v=".data ++ id.data).takeWhile
      fun c => c != '#') = "//youtube.com/watch?v=".data ++ id.data := by
    refine takeWhile_all_true ?_
    intro c hc
    rw [List.mem_append] at hc
    rcases hc with hc | hc
    · revert c; decide
    · exact plain_bne_true (hid c hc) (by decide)
  have hany : (("//youtube.com/watch?v=".data ++ id.data).any
      fun c => c == '?') = true := by
    rw [List.any_append]
    rw [show ("//youtube.com/watch?v=".data.any fun c => c == '?') = true from by decide]
    rfl
  have hdropq : (("//youtube.com/watch?v=".data ++ id.data).dropWhile
      fun c => c != '?') = '?' :: 'v' :: '=' :: id.data := rfl
  unfold parseURL
  rw [hpre, hscheme]
  simp only [hfrag, hany, if_true, hdropq]
  rfl

/-- `getYouTubeSubtitles` on `https://www.youtube.com/watch?v=<id>` for a
plain non-empty id: query the provider for `<id>` and serialize. -/
theorem getYouTubeSubtitles_watch_www
    (prov : String → Except Unit (List TranscriptSegment)) {id : String}
    (hid : ∀ c ∈ id.data, plainParamChar c = true) (hne : id ≠ "") :
    getYouTubeSubtitles prov ("https://www.youtube.com/watch?v=" ++ id) =
      match prov id with
      | Except.error _ => Except.error FetchError.transcriptUnavailable
      | Except.ok transcript => Except.ok (srtSerialize transcript) := by
  unfold getYouTubeSubtitles
  rw [parseURL_watch_www hid]
  simp only
  rw [searchParamsGet_v hid]
  simp only
  rw [show (id == "") = false from beq_eq_false_iff_ne.mpr hne]
  simp only [Bool.false_eq_true, if_false]

/-- `getYouTubeSubtitles` on `https://youtube.com/watch?v=<id>` for a
plain non-empty id: query the provider for `<id>` and serialize. -/
theorem getYouTubeSubtitles_watch_nowww
    (prov : String → Except Unit (List TranscriptSegment)) {id : String}
    (hid : ∀ c ∈ id.data, plainParamChar c = true) (hne : id ≠ "") :
    getYouTubeSubtitles prov ("https://youtube.com/watch?v=" ++ id) =
      match prov id with
      | Except.error _ => Except.error FetchError.transcriptUnavailable
      | Except.ok transcript => Except.ok (srtSerialize transcript) := by
  unfold getYouTubeSubtitles
  rw [parseURL_watch_nowww hid]
  simp only
  rw [searchParamsGet_v hid]
  simp only
  rw [show (id == "") = false from beq_eq_false_iff_ne.mpr hne]
  simp only [Bool.false_eq_true, if_false]

/-! ## Direct characterization of the SRT output -/

theorem digitChar_ne_dot (n : Nat) : digitChar n ≠ '.' := by
  unfold digitChar
  split <;> decide

/-- Replacing the first `.` when the preceding characters contain none. -/
theorem replaceFirst_dot {l : List Char} (r : List Char) (h : ∀ c ∈ l, c ≠ '.') :
    replaceFirstAux ['.'] [','] (l ++ '.' :: r) = l ++ ',' :: r := by
  induction l with
  | nil =>
    rw [List.nil_append, List.nil_append]
    simp [replaceFirstAux, List.isPrefixOf_cons₂, List.isPrefixOf_nil_left]
  | cons c cs ih =>
    have hc : c ≠ '.' := h c (List.mem_cons_self ..)
    have hpf : (['.'] : List Char).isPrefixOf (c :: (cs ++ '.' :: r)) = false := by
      rw [List.isPrefixOf_cons₂, beq_eq_false_iff_ne.mpr (Ne.symm hc), Bool.false_and]
    rw [List.cons_append]
    simp only [replaceFirstAux, hpf, Bool.false_eq_true, if_false]
    rw [ih fun x hx => h x (List.mem_cons_of_mem c hx)]
    rw [List.cons_append]

theorem mem_hhmmss_ne_dot (a b c : Nat) :
    ∀ x ∈ twoDigitsL a ++ ':' :: twoDigitsL b ++ ':' :: twoDigitsL c, x ≠ '.' := by
  intro x hx
  simp only [twoDigitsL, List.cons_append, List.nil_append, List.mem_cons,
    List.mem_append, List.not_mem_nil, or_false] at hx
  rcases hx with rfl | rfl | rfl | rfl | rfl | rfl | rfl | rfl
  all_goals first
    | exact digitChar_ne_dot _
    | decide

/-- The `start.replace(".", ",")` step turns the ISO time of day into the
SRT timestamp. -/
theorem jsReplaceFirst_isoTime (ms : Nat) :
    jsReplaceFirst (isoTimeOfDay ms) "." "," = srtTimeString ms := by
  unfold jsReplaceFirst isoTimeOfDay srtTimeString
  refine congrArg String.mk ?_
  rw [show (String.mk (isoTimeData ms)).data = isoTimeData ms from rfl]
  unfold isoTimeData
  rw [show twoDigitsL (ms / 3600000 % 24) ++ ':' ::
      (twoDigitsL (ms / 60000 % 60) ++ ':' ::
        (twoDigitsL (ms / 1000 % 60) ++ '.' :: threeDigitsL (ms % 1000))) =
    (twoDigitsL (ms / 3600000 % 24) ++ ':' :: twoDigitsL (ms / 60000 % 60) ++
      ':' :: twoDigitsL (ms / 1000 % 60)) ++ '.' :: threeDigitsL (ms % 1000) from by
    simp [List.append_assoc]]
  rw [show (".".data : List Char) = ['.'] from rfl, show (",".data : List Char) = [','] from rfl]
  rw [replaceFirst_dot (threeDigitsL (ms % 1000)) (mem_hhmmss_ne_dot _ _ _)]
  simp [List.append_assoc]

/-- Each cue emitted by the code equals its direct form. -/
theorem srtLine_eq_cueBlock (index : Nat) (item : TranscriptSegment) :
    srtLine index item = srtCueBlock index item := by
  unfold srtLine srtCueBlock
  rw [jsReplaceFirst_isoTime, jsReplaceFirst_isoTime]

theorem foldl_map_append (g : Nat × TranscriptSegment → String) :
    ∀ (l : List (Nat × TranscriptSegment)) (acc : String),
      (l.map g).foldl (fun a b => a ++ b) acc = l.foldl (fun a p => a ++ g p) acc
  | [], _ => rfl
  | p :: rest, acc => by
    rw [List.map_cons, List.foldl_cons, List.foldl_cons, foldl_map_append g rest]

theorem foldl_append_congr {f g : Nat × TranscriptSegment → String}
    (h : ∀ p, f p = g p) :
    ∀ (l : List (Nat × TranscriptSegment)) (acc : String),
      l.foldl (fun a p => a ++ f p) acc = l.foldl (fun a p => a ++ g p) acc
  | [], _ => rfl
  | p :: rest, acc => by
    rw [List.foldl_cons, List.foldl_cons, h p, foldl_append_congr h rest]

/-! ## Pruning lemmas -/

theorem shallow_isCommentNode : ShallowTest isCommentNode := fun _ _ _ => rfl

theorem shallow_isTableNode : ShallowTest isTableNode := fun _ _ _ => rfl

mutual

/-- A node surviving `remove` contains no match of the removal test. -/
theorem removeNode_clean (test : HNode → Bool) (hsh : ShallowTest test) :
    ∀ n m, removeNode test n = some m → containsMatch test m = false
  | HNode.element tagName children, m, h => by
    simp only [removeNode] at h
    by_cases ht : test (HNode.element tagName children) = true
    · rw [ht] at h
      simp at h
    · rw [Bool.not_eq_true] at ht
      rw [ht] at h
      simp only [Bool.false_eq_true, if_false] at h
      by_cases hcas :
          (decide (children.length > 0) && (removeList test children).length == 0) = true
      · rw [hcas] at h
        simp at h
      · rw [Bool.not_eq_true] at hcas
        rw [hcas] at h
        simp only [Bool.false_eq_true, if_false, Option.some.injEq] at h
        subst h
        simp only [containsMatch]
        rw [hsh tagName (removeList test children) children, ht]
        rw [removeList_clean test hsh children]
        rfl
  | HNode.text v, m, h => by
    simp only [removeNode] at h
    by_cases ht : test (HNode.text v) = true
    · rw [ht] at h
      simp at h
    · rw [Bool.not_eq_true] at ht
      rw [ht] at h
      simp only [Bool.false_eq_true, if_false, Option.some.injEq] at h
      subst h
      simpa only [containsMatch] using ht
  | HNode.comment v, m, h => by
    simp only [removeNode] at h
    by_cases ht : test (HNode.comment v) = true
    · rw [ht] at h
      simp at h
    · rw [Bool.not_eq_true] at ht
      rw [ht] at h
      simp only [Bool.false_eq_true, if_false, Option.some.injEq] at h
      subst h
      simpa only [containsMatch] using ht
  | HNode.doctype, m, h => by
    simp only [removeNode] at h
    by_cases ht : test HNode.doctype = true
    · rw [ht] at h
      simp at h
    · rw [Bool.not_eq_true] at ht
      rw [ht] at h
      simp only [Bool.false_eq_true, if_false, Option.some.injEq] at h
      subst h
      simpa only [containsMatch] using ht

/-- A forest filtered by `remove` contains no match of the removal test. -/
theorem removeList_clean (test : HNode → Bool) (hsh : ShallowTest test) :
    ∀ l, containsMatchList test (removeList test l) = false
  | [] => by simp [removeList, containsMatchList]
  | c :: cs => by
    rw [removeList]
    cases hrc : removeNode test c with
    | none => exact removeList_clean test hsh cs
    | some m =>
      simp only [containsMatchList]
      rw [removeNode_clean test hsh c m hrc]
      rw [removeList_clean test hsh cs]
      rfl

end

mutual

/-- `remove` never introduces matches of an unrelated shallow test. -/
theorem removeNode_preserves (t1 t2 : HNode → Bool) (hsh : ShallowTest t1) :
    ∀ n m, containsMatch t1 n = false → removeNode t2 n = some m →
      containsMatch t1 m = false
  | HNode.element tagName children, m, hn, h => by
    simp only [containsMatch, Bool.or_eq_false_iff] at hn
    simp only [removeNode] at h
    by_cases ht : t2 (HNode.element tagName children) = true
    · rw [ht] at h
      simp at h
    · rw [Bool.not_eq_true] at ht
      rw [ht] at h
      simp only [Bool.false_eq_true, if_false] at h
      by_cases hcas :
          (decide (children.length > 0) && (removeList t2 children).length == 0) = true
      · rw [hcas] at h
        simp at h
      · rw [Bool.not_eq_true] at hcas
        rw [hcas] at h
        simp only [Bool.false_eq_true, if_false, Option.some.injEq] at h
        subst h
        simp only [containsMatch]
        rw [hsh tagName (removeList t2 children) children, hn.1]
        rw [removeList_preserves t1 t2 hsh children hn.2]
        rfl
  | HNode.text v, m, hn, h => by
    simp only [removeNode] at h
    by_cases ht : t2 (HNode.text v) = true
    · rw [ht] at h
      simp at h
    · rw [Bool.not_eq_true] at ht
      rw [ht] at h
      simp only [Bool.false_eq_true, if_false, Option.some.injEq] at h
      subst h
      exact hn
  | HNode.comment v, m, hn, h => by
    simp only [removeNode] at h
    by_cases ht : t2 (HNode.comment v) = true
    · rw [ht] at h
      simp at h
    · rw [Bool.not_eq_true] at ht
      rw [ht] at h
      simp only [Bool.false_eq_true, if_false, Option.some.injEq] at h
      subst h
      exact hn
  | HNode.doctype, m, hn, h => by
    simp only [removeNode] at h
    by_cases ht : t2 HNode.doctype = true
    · rw [ht] at h
      simp at h
    · rw [Bool.not_eq_true] at ht
      rw [ht] at h
      simp only [Bool.false_eq_true, if_false, Option.some.injEq] at h
      subst h
      exact hn

/-- Forest version of `removeNode_preserves`. -/
theorem removeList_preserves (t1 t2 : HNode → Bool) (hsh : ShallowTest t1) :
    ∀ l, containsMatchList t1 l = false →
      containsMatchList t1 (removeList t2 l) = false
  | [], _ => by simp [removeList, containsMatchList]
  | c :: cs, hl => by
    simp only [containsMatchList, Bool.or_eq_false_iff] at hl
    rw [removeList]
    cases hrc : removeNode t2 c with
    | none => exact removeList_preserves t1 t2 hsh cs hl.2
    | some m =>
      simp only [containsMatchList]
      rw [removeNode_preserves t1 t2 hsh c m hl.1 hrc]
      rw [removeList_preserves t1 t2 hsh cs hl.2]
      rfl

end

mutual

/-- `remove` only deletes: the outside-table texts of a surviving node come
from the outside-table texts of the original node. -/
theorem textsOut_removeNode (test : HNode → Bool) :
    ∀ n m, removeNode test n = some m →
      textsOutsideTables m ⊆ textsOutsideTables n
  | HNode.element tagName children, m, h => by
    simp only [removeNode] at h
    by_cases ht : test (HNode.element tagName children) = true
    · rw [ht] at h
      simp at h
    · rw [Bool.not_eq_true] at ht
      rw [ht] at h
      simp only [Bool.false_eq_true, if_false] at h
      by_cases hcas :
          (decide (children.length > 0) && (removeList test children).length == 0) = true
      · rw [hcas] at h
        simp at h
      · rw [Bool.not_eq_true] at hcas
        rw [hcas] at h
        simp only [Bool.false_eq_true, if_false, Option.some.injEq] at h
        subst h
        simp only [textsOutsideTables]
        by_cases htab : (tagName == "table") = true
        · rw [htab]
          simp
        · rw [Bool.not_eq_true] at htab
          rw [htab]
          simp only [Bool.false_eq_true, if_false]
          exact textsOut_removeList test children
  | HNode.text v, m, h => by
    simp only [removeNode] at h
    by_cases ht : test (HNode.text v) = true
    · rw [ht] at h
      simp at h
    · rw [Bool.not_eq_true] at ht
      rw [ht] at h
      simp only [Bool.false_eq_true, if_false, Option.some.injEq] at h
      subst h
      exact List.Subset.refl _
  | HNode.comment v, m, h => by
    simp only [removeNode] at h
    by_cases ht : test (HNode.comment v) = true
    · rw [ht] at h
      simp at h
    · rw [Bool.not_eq_true] at ht
      rw [ht] at h
      simp only [Bool.false_eq_true, if_false, Option.some.injEq] at h
      subst h
      exact List.Subset.refl _
  | HNode.doctype, m, h => by
    simp only [removeNode] at h
    by_cases ht : test HNode.doctype = true
    · rw [ht] at h
      simp at h
    · rw [Bool.not_eq_true] at ht
      rw [ht] at h
      simp only [Bool.false_eq_true, if_false, Option.some.injEq] at h
      subst h
      exact List.Subset.refl _

/-- Forest version of `textsOut_removeNode`. -/
theorem textsOut_removeList (test : HNode → Bool) :
    ∀ l, textsOutsideTablesList (removeList test l) ⊆ textsOutsideTablesList l
  | [] => by simp [removeList]
  | c :: cs => by
    rw [removeList]
    cases hrc : removeNode test c with
    | none =>
      refine (textsOut_removeList test cs).trans ?_
      simp only [textsOutsideTablesList]
      exact List.subset_append_right _ _
    | some m =>
      simp only [textsOutsideTablesList]
      refine List.append_subset.mpr ⟨?_, ?_⟩
      · exact (textsOut_removeNode test c m hrc).trans (List.subset_append_left _ _)
      · exact (textsOut_removeList test cs).trans (List.subset_append_right _ _)

end

mutual

/-- On a table-free tree every text lies outside the (absent) tables. -/
theorem textValues_eq_outside :
    ∀ n, containsMatch isTableNode n = false → textValues n = textsOutsideTables n
  | HNode.element tagName children, h => by
    simp only [containsMatch, Bool.or_eq_false_iff] at h
    have htab : (tagName == "table") = false := h.1
    simp only [textValues, textsOutsideTables, htab, Bool.false_eq_true, if_false]
    exact textValuesList_eq_outside children h.2
  | HNode.text v, _ => rfl
  | HNode.comment v, _ => rfl
  | HNode.doctype, _ => rfl

/-- Forest version of `textValues_eq_outside`. -/
theorem textValuesList_eq_outside :
    ∀ l, containsMatchList isTableNode l = false →
      textValuesList l = textsOutsideTablesList l
  | [], _ => rfl
  | c :: cs, h => by
    simp only [containsMatchList, Bool.or_eq_false_iff] at h
    simp only [textValuesList, textsOutsideTablesList]
    rw [textValues_eq_outside c h.1, textValuesList_eq_outside cs h.2]

end

/-- Unfolding `getYouTubeSubtitles` when `new URL(url)` succeeded. -/
theorem getYouTubeSubtitles_parsed
    (prov : String → Except Unit (List TranscriptSegment)) {url : String}
    {u : ParsedURL} (hp : parseURL url = some u) :
    getYouTubeSubtitles prov url =
      (match searchParamsGet u.query "v" with
       | none => Except.error FetchError.invalidYouTubeURL
       | some videoId =>
         if videoId == "" then Except.error FetchError.invalidYouTubeURL
         else
           match prov videoId with
           | Except.error _ => Except.error FetchError.transcriptUnavailable
           | Except.ok transcript => Except.ok (srtSerialize transcript)) := by
  unfold getYouTubeSubtitles
  rw [hp]

/-! ## Claim theorems -/

/-- **C2.** For every URL whose initial HTTP GET yields a non-success
status, `fetchContentFromURL` fails with the `FetchFailure` error
("Failure fetching content from provided URL"), performs no retry, and
returns no `ExtractedContent` record. -/
theorem nonOk_fetch_fails (env : Env) (url : String)
    (h : env.response.ok = false) :
    fetchContentFromURL env url = Except.error FetchError.fetchFailure ∧
    FetchError.fetchFailure.message = "Failure fetching content from provided URL" := by
  refine ⟨?_, rfl⟩
  unfold fetchContentFromURL
  rw [h]
  rfl

theorem nonOk_fetch_fails_witness :
    fetchContentFromURL envNotOk "https://example.com/missing" =
        Except.error FetchError.fetchFailure ∧
      FetchError.fetchFailure.message = "Failure fetching content from provided URL" :=
  nonOk_fetch_fails envNotOk "https://example.com/missing" rfl

/-- **C8.** For every URL that is not a YouTube link and whose response
content-type contains neither `"text/html"` nor `"application/pdf"`,
`fetchContentFromURL` fails with the `UnsupportedType` error and returns
no record. -/
theorem unsupported_type_error (env : Env) (url : String)
    (hok : env.response.ok = true)
    (hyt : isYouTubeLink url = false)
    (hhtml : jsIncludes (env.response.contentType.getD "") "text/html" = false)
    (hpdf : jsIncludes (env.response.contentType.getD "") "application/pdf" = false) :
    fetchContentFromURL env url = Except.error FetchError.unsupportedType ∧
    FetchError.unsupportedType.message = "URL provided is not a PDF or HTML document" := by
  refine ⟨?_, rfl⟩
  unfold fetchContentFromURL contentTypeDispatch
  rw [hok, hyt]
  simp only [Bool.false_eq_true, if_false, hhtml, hpdf]
  simp

theorem unsupported_type_error_witness :
    fetchContentFromURL envJson "https://example.com/data.json" =
        Except.error FetchError.unsupportedType ∧
      FetchError.unsupportedType.message = "URL provided is not a PDF or HTML document" :=
  unsupported_type_error envJson "https://example.com/data.json" rfl
    (by decide) (by decide) (by decide)

/-- **C5.** For every URL-fetched response whose content-type contains
`"text/html"` (and that is not a YouTube link), the returned record's
content is the markdown conversion of the body, its type is
`"text/html"`, and its size is the length of the original raw HTML — not
of the markdown output, so `size = content.length` need not hold (second
conjunct: a concrete page where they differ). -/
theorem html_branch_size_raw (env : Env) (url : String) (md : String)
    (hok : env.response.ok = true)
    (hyt : isYouTubeLink url = false)
    (hct : jsIncludes (env.response.contentType.getD "") "text/html" = true)
    (hmd : htmlToMarkdown env env.response.body = Except.ok md) :
    fetchContentFromURL env url =
      Except.ok
        { url := some url, content := md,
          size := env.response.body.length, type := "text/html" } ∧
    ∃ r, fetchContentFromURL envHtmlPage "https://example.com/page" = Except.ok r ∧
      r.type = "text/html" ∧ r.size ≠ r.content.length := by
  constructor
  · unfold fetchContentFromURL contentTypeDispatch
    rw [hok, hyt]
    simp only [Bool.false_eq_true, if_false, hct, if_true, hmd]
    rfl
  · refine ⟨{ url := some "https://example.com/page", content := "Hi", size := 9, type := "text/html" }, rfl, rfl, by decide⟩

theorem html_branch_size_raw_witness :
    fetchContentFromURL envHtmlPage "https://example.com/page" =
      Except.ok
        { url := some "https://example.com/page", content := "Hi",
          size := 9, type := "text/html" } := by
  have h := html_branch_size_raw envHtmlPage "https://example.com/page" "Hi"
    rfl (by decide) (by decide) rfl
  exact h.1

/-- **C7.** PDF extraction on the URL path (content-type contains
`"application/pdf"`, re-fetched as a binary buffer) and on the
direct-buffer path both return a record with type `"application/pdf"` and
size exactly `content.length`. -/
theorem pdf_paths_type_and_size (env : Env) (url : String)
    (buf : PdfBuffer) (txt : String)
    (pp : PdfBuffer → Except Unit String) (buffer : PdfBuffer) (txt2 : String)
    (hok : env.response.ok = true)
    (hyt : isYouTubeLink url = false)
    (hhtml : jsIncludes (env.response.contentType.getD "") "text/html" = false)
    (hpdf : jsIncludes (env.response.contentType.getD "") "application/pdf" = true)
    (hbuf : env.refetchBuffer = Except.ok buf)
    (htxt : env.pdfParse buf = Except.ok txt)
    (hp2 : pp buffer = Except.ok txt2) :
    fetchContentFromURL env url =
      Except.ok
        { url := some url, content := txt, size := txt.length,
          type := "application/pdf" } ∧
    getPDFContentFromBuffer pp buffer =
      Except.ok { content := txt2, size := txt2.length, type := "application/pdf" } := by
  constructor
  · unfold fetchContentFromURL contentTypeDispatch
    rw [hok, hyt]
    simp only [Bool.false_eq_true, if_false, hhtml, hpdf, if_true, hbuf, htxt]
    rfl
  · unfold getPDFContentFromBuffer
    rw [hp2]

theorem pdf_paths_type_and_size_witness :
    fetchContentFromURL envPdf "https://example.com/paper.pdf" =
      Except.ok
        { url := some "https://example.com/paper.pdf",
          content := "Extracted text", size := 14, type := "application/pdf" } ∧
    getPDFContentFromBuffer envPdf.pdfParse [0x25, 0x50, 0x44, 0x46] =
      Except.ok { content := "Extracted text", size := 14, type := "application/pdf" } :=
  pdf_paths_type_and_size envPdf "https://example.com/paper.pdf"
    ([0x25, 0x50, 0x44, 0x46] : List Nat) "Extracted text"
    envPdf.pdfParse ([0x25, 0x50, 0x44, 0x46] : List Nat) "Extracted text"
    rfl (by decide) (by decide) (by decide) rfl rfl rfl

/-- **C9.** The YouTube-link classifier requires at least one character
after the host's slash: `https://youtu.be/` and `https://youtube.com/` are
classified as not-YouTube, so `fetchContentFromURL` dispatches them by
response content-type (`contentTypeDispatch`) instead of entering the
YouTube extraction path. -/
theorem empty_path_youtube_not_classified (env : Env)
    (hok : env.response.ok = true) :
    isYouTubeLink "https://youtu.be/" = false ∧
    isYouTubeLink "https://youtube.com/" = false ∧
    fetchContentFromURL env "https://youtu.be/" =
      contentTypeDispatch env "https://youtu.be/" ∧
    fetchContentFromURL env "https://youtube.com/" =
      contentTypeDispatch env "https://youtube.com/" := by
  refine ⟨by decide, by decide, ?_, ?_⟩
  · unfold fetchContentFromURL
    rw [hok]
    simp [show isYouTubeLink "https://youtu.be/" = false from by decide]
  · unfold fetchContentFromURL
    rw [hok]
    simp [show isYouTubeLink "https://youtube.com/" = false from by decide]

theorem empty_path_youtube_not_classified_witness :
    isYouTubeLink "https://youtu.be/" = false ∧
    isYouTubeLink "https://youtube.com/" = false ∧
    fetchContentFromURL envJson "https://youtu.be/" =
      contentTypeDispatch envJson "https://youtu.be/" ∧
    fetchContentFromURL envJson "https://youtube.com/" =
      contentTypeDispatch envJson "https://youtube.com/" :=
  empty_path_youtube_not_classified envJson rfl

/-- **C6.** For every URL accepted by `new URL` but carrying no usable `v`
query parameter (absent, or empty — JavaScript falsy), the transcript
extraction fails with the `InvalidInput` error "Invalid YouTube URL"; in
particular `https://youtu.be/` (no `v` parameter) fails with exactly this
error. -/
theorem youtube_missing_v_invalid_input
    (prov : String → Except Unit (List TranscriptSegment)) (url : String)
    (u : ParsedURL) (hp : parseURL url = some u)
    (hv : searchParamsGet u.query "v" = none ∨ searchParamsGet u.query "v" = some "") :
    getYouTubeSubtitles prov url = Except.error FetchError.invalidYouTubeURL ∧
    FetchError.invalidYouTubeURL.message = "Invalid YouTube URL" ∧
    getYouTubeSubtitles prov "https://youtu.be/" =
      Except.error FetchError.invalidYouTubeURL := by
  refine ⟨?_, rfl, rfl⟩
  rw [getYouTubeSubtitles_parsed prov hp]
  rcases hv with hv | hv
  · rw [hv]
  · rw [hv]
    simp

theorem youtube_missing_v_invalid_input_witness :
    getYouTubeSubtitles (fun _ => Except.error ()) "https://youtu.be/" =
        Except.error FetchError.invalidYouTubeURL ∧
      FetchError.invalidYouTubeURL.message = "Invalid YouTube URL" ∧
      getYouTubeSubtitles (fun _ => Except.error ()) "https://youtu.be/" =
        Except.error FetchError.invalidYouTubeURL :=
  youtube_missing_v_invalid_input (fun _ => Except.error ()) "https://youtu.be/"
    ⟨"https", none⟩ (by decide) (Or.inl rfl)

/-- **C10.** Every scheme-less URL accepted by the YouTube-link classifier
(such as `youtube.com/watch?v=abc` — the regex makes the scheme optional)
makes the extractor's `new URL(url)` throw a generic URL-parse error, not
the documented `InvalidInput` error and not a successful extraction. -/
theorem schemeless_youtube_url_parse_error
    (prov : String → Except Unit (List TranscriptSegment)) (url : String)
    (_hyt : isYouTubeLink url = true)
    (hns : parseScheme (urlPreprocess url) = none) :
    getYouTubeSubtitles prov url = Except.error FetchError.urlParse ∧
    FetchError.urlParse ≠ FetchError.invalidYouTubeURL ∧
    isYouTubeLink "youtube.com/watch?v=abc" = true ∧
    parseScheme (urlPreprocess "youtube.com/watch?v=abc") = none := by
  refine ⟨?_, by decide, by decide, by decide⟩
  unfold getYouTubeSubtitles parseURL
  rw [hns]

theorem schemeless_youtube_url_parse_error_witness :
    getYouTubeSubtitles (fun _ => Except.error ()) "youtube.com/watch?v=abc" =
        Except.error FetchError.urlParse ∧
      FetchError.urlParse ≠ FetchError.invalidYouTubeURL ∧
      isYouTubeLink "youtube.com/watch?v=abc" = true ∧
      parseScheme (urlPreprocess "youtube.com/watch?v=abc") = none :=
  schemeless_youtube_url_parse_error (fun _ => Except.error ())
    "youtube.com/watch?v=abc" (by decide) (by decide)

/-- **C4.** The SRT serialization emits, per segment in provider order, a
1-based cue index, a `HH:MM:SS,mmm --> HH:MM:SS,mmm` line with
`end = start + duration` at millisecond precision and comma as decimal
separator, the text, and a blank line (`srtCueBlock`); for
`{offset: 0, duration: 1000, text: "Hi"}` the output begins
`"1\n00:00:00,000 --> 00:00:01,000\nHi\n\n"`. -/
theorem srt_serialization_spec (transcript : List TranscriptSegment) :
    srtSerialize transcript =
      (transcript.enum.map fun p => srtCueBlock p.1 p.2).foldl (fun a b => a ++ b) "" ∧
    "1\n00:00:00,000 --> 00:00:01,000\nHi\n\n".data.isPrefixOf
      (srtSerialize [⟨0, 1000, "Hi"⟩]).data = true := by
  constructor
  · unfold srtSerialize
    rw [foldl_map_append]
    exact foldl_append_congr (fun p => srtLine_eq_cueBlock p.1 p.2) transcript.enum ""
  · decide

/-- **C3.** Pruning is complete: for every HTML input, the tree handed to
the markdown conversion stage contains no comment node and no `table`
element, its text values all come from outside every `table` subtree of
the parsed tree, and the conversion input is exactly the pruned tree. -/
theorem html_pruning_complete (env : Env) (html : String) :
    containsMatchList isCommentNode
        (removeCommentsAndTables (env.parseHtml html)).children = false ∧
    containsMatchList isTableNode
        (removeCommentsAndTables (env.parseHtml html)).children = false ∧
    textValuesList (removeCommentsAndTables (env.parseHtml html)).children ⊆
      textsOutsideTablesList (env.parseHtml html).children ∧
    htmlToMarkdown env html =
      (match env.hastToMdString (removeCommentsAndTables (env.parseHtml html)) with
       | Except.error _ => Except.error FetchError.conversionFailure
       | Except.ok md => Except.ok md) := by
  refine ⟨?_, ?_, ?_, rfl⟩
  · exact removeList_preserves isCommentNode isTableNode shallow_isCommentNode _
      (removeList_clean isCommentNode shallow_isCommentNode (env.parseHtml html).children)
  · exact removeList_clean isTableNode shallow_isTableNode _
  · rw [show (removeCommentsAndTables (env.parseHtml html)).children =
      removeList isTableNode (removeList isCommentNode (env.parseHtml html).children)
      from rfl]
    rw [textValuesList_eq_outside _
      (removeList_clean isTableNode shallow_isTableNode
        (removeList isCommentNode (env.parseHtml html).children))]
    exact (textsOut_removeList isTableNode _).trans (textsOut_removeList isCommentNode _)

/-- **C1.** URLs of the form `https://www.youtube.com/watch?v=<id>` or
`https://youtube.com/watch?v=<id>` are classified as YouTube and, once
the initial GET succeeded, are delegated to the YouTube extractor
independently of the response's content-type and body (the two delegation
conjuncts mention neither); on provider success the result is
`{url, content: srtContent, size: srtContent.length, type: "text/plain"}`. -/
theorem youtube_watch_classified_delegated (id : String) (env : Env)
    (segs : List TranscriptSegment)
    (hid : ∀ c ∈ id.data, plainParamChar c = true) (hne : id ≠ "")
    (hok : env.response.ok = true)
    (htr : env.transcript id = Except.ok segs) :
    isYouTubeLink ("https://www.youtube.com/watch?v=" ++ id) = true ∧
    isYouTubeLink ("https://youtube.com/watch?v=" ++ id) = true ∧
    fetchContentFromURL env ("https://www.youtube.com/watch?v=" ++ id) =
      (getYouTubeSubtitles env.transcript ("https://www.youtube.com/watch?v=" ++ id)).map
        (fun srtContent =>
          { url := some ("https://www.youtube.com/watch?v=" ++ id),
            content := srtContent, size := srtContent.length, type := "text/plain" }) ∧
    fetchContentFromURL env ("https://youtube.com/watch?v=" ++ id) =
      (getYouTubeSubtitles env.transcript ("https://youtube.com/watch?v=" ++ id)).map
        (fun srtContent =>
          { url := some ("https://youtube.com/watch?v=" ++ id),
            content := srtContent, size := srtContent.length, type := "text/plain" }) ∧
    fetchContentFromURL env ("https://www.youtube.com/watch?v=" ++ id) =
      Except.ok
        { url := some ("https://www.youtube.com/watch?v=" ++ id),
          content := srtSerialize segs, size := (srtSerialize segs).length,
          type := "text/plain" } ∧
    fetchContentFromURL env ("https://youtube.com/watch?v=" ++ id) =
      Except.ok
        { url := some ("https://youtube.com/watch?v=" ++ id),
          content := srtSerialize segs, size := (srtSerialize segs).length,
          type := "text/plain" } := by
  have hdel1 : fetchContentFromURL env ("https://www.youtube.com/watch?v=" ++ id) =
      (getYouTubeSubtitles env.transcript ("https://www.youtube.com/watch?v=" ++ id)).map
        (fun srtContent =>
          { url := some ("https://www.youtube.com/watch?v=" ++ id),
            content := srtContent, size := srtContent.length, type := "text/plain" }) := by
    unfold fetchContentFromURL
    rw [hok]
    simp [show isYouTubeLink ("https://www.youtube.com/watch?v=" ++ id) = true from rfl]
  have hdel2 : fetchContentFromURL env ("https://youtube.com/watch?v=" ++ id) =
      (getYouTubeSubtitles env.transcript ("https://youtube.com/watch?v=" ++ id)).map
        (fun srtContent =>
          { url := some ("https://youtube.com/watch?v=" ++ id),
            content := srtContent, size := srtContent.length, type := "text/plain" }) := by
    unfold fetchContentFromURL
    rw [hok]
    simp [show isYouTubeLink ("https://youtube.com/watch?v=" ++ id) = true from rfl]
  refine ⟨rfl, rfl, hdel1, hdel2, ?_, ?_⟩
  · rw [hdel1, getYouTubeSubtitles_watch_www env.transcript hid hne, htr]
    rfl
  · rw [hdel2, getYouTubeSubtitles_watch_nowww env.transcript hid hne, htr]
    rfl

theorem youtube_watch_classified_delegated_witness :
    fetchContentFromURL envYouTube ("https://www.youtube.com/watch?v=" ++ "abc") =
      Except.ok
        { url := some ("https://www.youtube.com/watch?v=" ++ "abc"),
          content := srtSerialize [⟨0, 1000, "Hi"⟩],
          size := (srtSerialize [⟨0, 1000, "Hi"⟩]).length, type := "text/plain" } :=
  (youtube_watch_classified_delegated "abc" envYouTube [⟨0, 1000, "Hi"⟩]
    (by decide) (by decide) rfl rfl).2.2.2.2.1
example : isYouTubeLink "https://youtube.com/watch?v=abc" = true := by decide
example : isYouTubeLink "youtube.com/watch?v=abc" = true := by decide
example : isYouTubeLink "https://youtu.be/abc" = true := by decide
example : isYouTubeLink "https://youtu.be/" = false := by decide
example : isYouTubeLink "https://youtube.com/" = false := by decide
example : isYouTubeLink "https://example.com/page" = false := by decide
example : jsIncludes "text/html; charset=utf-8" "text/html" = true := by decide
example : jsIncludes "application/json" "text/html" = false := by decide

end ChatLlama
